import Mathlib

/-!
# Common::Event (Source/Core/Common/Event.h)

A shallow embedding of the two `Event` classes of `Event.h`:

* the condition-variable variant (`#ifndef _WIN32`), built from a `Flag`, a
  `std::mutex` and a `std::condition_variable`;
* the native-event variant (`#else`), a wrapper around `concurrency::event`.

Part 1 models each member function as a function on the object state that
also returns the sequence of primitive operations it performed, in program
order.  A `Wait()` runs among other threads: they may change the flag between
any two of its operations on the flag, and when it reaches `m_condvar.wait`
it is driven by a wakeup schedule, the list of wakeups the condition variable
delivers to the calling thread.

Part 2 models the same member functions as a small-step machine, one atomic
primitive operation per step, for threads that interleave.
-/

namespace Common

/-! ## Part 1: the member functions, one call at a time -/

/-- Modelled from the spec: `Common/Flag.h` is included by `Event.h` but is not
among the sources.  The flag is the "atomic boolean-like flag" holding the
single signaled/unsignaled bit, constructed unsignaled. -/
structure Flag where
  m_val : Bool
deriving DecidableEq, Repr

namespace Flag

/-- Modelled from the spec: an event is "constructed in the unsignaled state",
so a default-constructed flag is clear. -/
def init : Flag := ⟨false⟩

/-- Modelled from the spec: `Flag::IsSet`, an atomic read of the bit. -/
def IsSet (f : Flag) : Bool := f.m_val

/-- Modelled from the spec: `Flag::Clear`, an atomic store of "unsignaled". -/
def Clear (_f : Flag) : Flag := ⟨false⟩

/-- Modelled from the spec: `Flag::TestAndSet` "atomically transitions the flag
from unsignaled to signaled" and reports whether "this call is the one that
performs that transition (i.e., the flag was previously unsignaled)". -/
def TestAndSet (f : Flag) : Bool × Flag :=
  if f.m_val = false then (true, ⟨true⟩) else (false, f)

/-- Modelled from the spec: `Flag::TestAndClear`, the mirror image of
`TestAndSet`: "if the flag is already signaled, atomically clears it" and
reports whether it did. -/
def TestAndClear (f : Flag) : Bool × Flag :=
  if f.m_val = true then (true, ⟨false⟩) else (false, f)

end Flag

/-- The primitive operations a member function performs on `m_flag`, `m_mutex`
and `m_condvar`, in program order.  The flag operations carry the value they
returned. -/
inductive Prim
  /-- The call `m_flag.TestAndSet()` and its result. -/
  | testAndSet (r : Bool)
  /-- The call `m_flag.TestAndClear()` and its result. -/
  | testAndClear (r : Bool)
  /-- The call `m_flag.IsSet()` made by the wait predicate, and its result. -/
  | isSet (r : Bool)
  /-- The call `m_flag.Clear()`. -/
  | clear
  /-- Acquisition of `m_mutex` by the constructor of `lk`. -/
  | lock
  /-- Release of `m_mutex` by the destructor of `lk`. -/
  | unlock
  /-- The call `m_condvar.notify_one()`. -/
  | notify_one
  /-- The call `wait(lk)` inside `m_condvar.wait(lk, pred)`: the mutex is
  released and the thread blocks. -/
  | cv_block
  /-- The return of `wait(lk)`: the thread was woken, by a notification or
  spuriously, and holds the mutex again. -/
  | cv_wake (notified : Bool)
deriving DecidableEq, Repr

namespace Prim

/-- Whether a primitive operation touches the mutex or the condition variable
(as opposed to the atomic flag). -/
def isSync : Prim → Bool
  | lock | unlock | notify_one | cv_block | cv_wake _ => true
  | testAndSet _ | testAndClear _ | isSet _ | clear => false

/-- Whether a primitive operation is a check of the flag that found it
signaled: a successful `TestAndClear` or a wait predicate that held. -/
def foundSignaled : Prim → Bool
  | testAndClear true | isSet true => true
  | _ => false

end Prim

/-- The condition-variable variant of `class Event`.  Between calls the mutex is
free and nobody is inside `m_condvar.wait`, so the only member that carries
state from one call to the next is `m_flag`. -/
structure Event where
  m_flag : Flag
deriving DecidableEq, Repr

/-- One wakeup of a thread blocked in `wait(lk)`. -/
structure Wakeup where
  /-- Whether the wakeup answers a `notify_one` (otherwise it is spurious). -/
  notified : Bool
  /-- What the other threads did to the flag between the evaluation of the
  predicate that sent this thread to `wait(lk)` and the evaluation that follows
  the wakeup: `none` when they left it alone, `some b` when they left it
  holding `b`. -/
  others : Option Bool
deriving DecidableEq, Repr

/-- A wakeup with no notification and no other thread touching the flag. -/
def Wakeup.spurious : Wakeup := ⟨false, none⟩

/-- The flag as the woken thread finds it. -/
def Wakeup.apply (w : Wakeup) (f : Flag) : Flag :=
  match w.others with
  | none => f
  | some b => ⟨b⟩

/-- The flag after the other threads acted on it between two operations of the
calling thread: `none` when they left it alone, `some b` when they left it
holding `b`. -/
def Flag.disturbed (others : Option Bool) (f : Flag) : Flag :=
  match others with
  | none => f
  | some b => ⟨b⟩

/-- What the other threads do to the flag during one call of `Wait()` that
fails its `TestAndClear()`.  Together with the starting state this covers
every point at which another thread can act between two operations of the
call on the flag. -/
structure Interference where
  /-- Between the failed `TestAndClear()` (line 42) and the first evaluation of
  the wait predicate (line 46), before or after the mutex is acquired. -/
  beforeWait : Option Bool
  /-- The wakeups delivered to the thread, each with what the other threads did
  since the predicate last failed. -/
  wakeups : List Wakeup
  /-- Between the evaluation of the predicate that held (line 46) and
  `m_flag.Clear()` (line 47). -/
  beforeClear : Option Bool
  /-- Between `m_flag.Clear()` (line 47) and the return of the call. -/
  beforeReturn : Option Bool
deriving DecidableEq, Repr

/-- The interference in which the other threads act on the flag only between a
failed evaluation of the predicate and the next one, as `sched` says. -/
def Interference.atWakeups (sched : List Wakeup) : Interference := ⟨none, sched, none, none⟩

/-- How a call of `Wait()` ends. -/
inductive WaitResult
  /-- The call returned, leaving the event in state `e`. -/
  | returned (e : Event) (trace : List Prim)
  /-- The schedule is exhausted and the thread is still blocked in `wait(lk)`. -/
  | blocked (e : Event) (trace : List Prim)
deriving DecidableEq, Repr

namespace WaitResult

/-- The state of the event at the end of the call. -/
def event : WaitResult → Event
  | returned e _ => e
  | blocked e _ => e

/-- The primitive operations performed by the call. -/
def trace : WaitResult → List Prim
  | returned _ t => t
  | blocked _ t => t

/-- Whether the call returned. -/
def isReturned : WaitResult → Bool
  | returned _ _ => true
  | blocked _ _ => false

end WaitResult

namespace Event

/-- A freshly constructed event. -/
def init : Event := ⟨Flag.init⟩

/-- Whether the event is signaled. -/
def signaled (e : Event) : Bool := e.m_flag.IsSet

/-- The member function `Event::Set` (Event.h, lines 31-38). -/
def Set (e : Event) : Event × List Prim :=
  let (r, f) := e.m_flag.TestAndSet
  if r then
    (⟨f⟩, [Prim.testAndSet true, Prim.lock, Prim.notify_one, Prim.unlock])
  else
    (⟨f⟩, [Prim.testAndSet false])

/-- The loop `while (!pred()) wait(lk);` that `m_condvar.wait(lk, pred)` runs
with `pred = [&]{ return m_flag.IsSet(); }`.  The result is the flag, the
operations performed and whether the loop was left. -/
def condvarWait (f : Flag) : List Wakeup → Flag × List Prim × Bool
  | [] =>
    if f.IsSet then (f, [Prim.isSet true], true)
    else (f, [Prim.isSet false, Prim.cv_block], false)
  | w :: ws =>
    if f.IsSet then (f, [Prim.isSet true], true)
    else
      let r := condvarWait (w.apply f) ws
      (r.1, Prim.isSet false :: Prim.cv_block :: Prim.cv_wake w.notified :: r.2.1, r.2.2)

/-- The member function `Event::Wait` (Event.h, lines 40-48), called while
other threads use the event: `env` says what they do to the flag between the
operations of the call. -/
def WaitAmong (e : Event) (env : Interference) : WaitResult :=
  let (r, f) := e.m_flag.TestAndClear
  if r then
    WaitResult.returned ⟨f⟩ [Prim.testAndClear true]
  else
    let w := condvarWait (f.disturbed env.beforeWait) env.wakeups
    if w.2.2 then
      WaitResult.returned ⟨((w.1.disturbed env.beforeClear).Clear).disturbed env.beforeReturn⟩
        (Prim.testAndClear false :: Prim.lock :: (w.2.1 ++ [Prim.clear, Prim.unlock]))
    else
      WaitResult.blocked ⟨w.1⟩ (Prim.testAndClear false :: Prim.lock :: w.2.1)

/-- The member function `Event::Wait` called while the other threads act on the
flag at most between a failed evaluation of the wait predicate and the next
one: `WaitAmong` with no interference elsewhere.  This is the call as one
thread sees it when no `Set()` or `Reset()` runs concurrently with the part
of the call before `wait(lk)` or after the predicate held. -/
def Wait (e : Event) (sched : List Wakeup) : WaitResult :=
  WaitAmong e (Interference.atWakeups sched)

/-- The member function `Event::Reset` (Event.h, lines 50-56). -/
def Reset (e : Event) : Event × List Prim :=
  (⟨e.m_flag.Clear⟩, [Prim.clear])

/-- The event after `n` consecutive calls of `Set()`. -/
def SetN : Nat → Event → Event
  | 0, e => e
  | n + 1, e => SetN n (Set e).1

end Event

/-! ### The native-event variant -/

namespace concurrency

/-- Modelled from the spec: `concurrency::event` of `<concrt.h>`, the
"platform-provided kernel/user-mode event object" wrapped by the `_WIN32`
variant; it is not among the sources.  It holds one signaled/unsignaled bit
that "does not auto-clear on a single waiter's wake". -/
structure event where
  signaled : Bool
deriving DecidableEq, Repr

namespace event

/-- Modelled from the spec: a native event object starts unsignaled. -/
def init : event := ⟨false⟩

/-- Modelled from the spec: `event::set` "signals the native object". -/
def set (_ev : event) : event := ⟨true⟩

/-- Modelled from the spec: `event::reset` "clears it directly". -/
def reset (_ev : event) : event := ⟨false⟩

/-- Modelled from the spec: `event::wait` "blocks on it": the call returns, with
the object unchanged, once the object is signaled; `none` stands for a call
that stays blocked because the object is unsignaled. -/
def wait (ev : event) : Option event :=
  if ev.signaled then some ev else none

end event

end concurrency

namespace Win32

/-- The native-event variant of `class Event` (Event.h, lines 64-73). -/
structure Event where
  m_event : concurrency.event
deriving DecidableEq, Repr

namespace Event

/-- A freshly constructed event. -/
def init : Event := ⟨concurrency.event.init⟩

/-- Whether the event is signaled. -/
def signaled (e : Event) : Bool := e.m_event.signaled

/-- The member function `Event::Set`: `m_event.set();`. -/
def Set (e : Event) : Event := ⟨e.m_event.set⟩

/-- The member function `Event::Wait`: `m_event.wait(); m_event.reset();`.
The result is `none` when `m_event.wait()` stays blocked. -/
def Wait (e : Event) : Option Event :=
  match e.m_event.wait with
  | some ev => some ⟨ev.reset⟩
  | none => none

/-- The member function `Event::Reset`: `m_event.reset();`. -/
def Reset (e : Event) : Event := ⟨e.m_event.reset⟩

end Event

end Win32

/-! ### Sequences of calls made by one thread -/

/-- The three operations of the public interface. -/
inductive Call
  | Set
  | Wait
  | Reset
deriving DecidableEq, Repr

/-- What the caller sees of a call: it returned, or it never does. -/
inductive Outcome
  | returned
  | blocked
deriving DecidableEq, Repr

/-- Runs a sequence of calls made by one thread on an object with state `σ`.
Each call is recorded with its outcome and with whether the event is
signaled after it.  A call that blocks ends the run: the thread never gets
to the calls after it. -/
def runCalls {σ : Type} (call : Call → σ → Outcome × σ) (sig : σ → Bool) :
    List Call → σ → List (Outcome × Bool)
  | [], _ => []
  | c :: cs, s =>
    match call c s with
    | (Outcome.returned, s1) => (Outcome.returned, sig s1) :: runCalls call sig cs s1
    | (Outcome.blocked, s1) => [(Outcome.blocked, sig s1)]

/-- One call on the condition-variable variant, made while no other thread uses
the event; a `Wait()` that blocks receives `k` spurious wakeups. -/
def Event.call (k : Nat) : Call → Event → Outcome × Event
  | Call.Set, e => (Outcome.returned, (Event.Set e).1)
  | Call.Wait, e =>
    match Event.Wait e (List.replicate k Wakeup.spurious) with
    | WaitResult.returned e1 _ => (Outcome.returned, e1)
    | WaitResult.blocked e1 _ => (Outcome.blocked, e1)
  | Call.Reset, e => (Outcome.returned, (Event.Reset e).1)

/-- One call on the native-event variant, made while no other thread uses the
event. -/
def Win32.Event.call : Call → Win32.Event → Outcome × Win32.Event
  | Call.Set, e => (Outcome.returned, Win32.Event.Set e)
  | Call.Wait, e =>
    match Win32.Event.Wait e with
    | some e1 => (Outcome.returned, e1)
    | none => (Outcome.blocked, e)
  | Call.Reset, e => (Outcome.returned, Win32.Event.Reset e)

/-- The states of the state machine that the specification gives for both
variants. -/
inductive SpecState
  | Unsignaled
  | Signaled
deriving DecidableEq, Repr

namespace SpecState

/-- The initial state of the specification: "Initial state: `Unsignaled`." -/
def init : SpecState := Unsignaled

/-- Whether a state of the specification is `Signaled`. -/
def signaled : SpecState → Bool
  | Signaled => true
  | Unsignaled => false

/-- The transitions as the specification words them: "`Set` → `Signaled`
(idempotent); a successful return from `Wait` while in `Signaled` →
`Unsignaled` (consumes the signal); `Reset` → `Unsignaled`"; a `Wait` while in
`Unsignaled` blocks. -/
def call : Call → SpecState → Outcome × SpecState
  | Call.Set, _ => (Outcome.returned, Signaled)
  | Call.Wait, Signaled => (Outcome.returned, Unsignaled)
  | Call.Wait, Unsignaled => (Outcome.blocked, Unsignaled)
  | Call.Reset, _ => (Outcome.returned, Unsignaled)

end SpecState

/-! ## Part 2: threads that interleave

One step of the machine is one primitive operation of one thread: an atomic
operation on the flag, an acquisition or release of the mutex, a
`notify_one`, or entering or leaving `wait(lk)`. -/

/-- Where a thread is inside `Event::Set` (Event.h, lines 31-38). -/
inductive SetPc
  /-- Before `m_flag.TestAndSet()` (line 33). -/
  | testAndSet
  /-- Before the construction of `lk`, which acquires `m_mutex` (line 35). -/
  | lock
  /-- Before `m_condvar.notify_one()`, holding the mutex (line 36). -/
  | notify
  /-- Before the destruction of `lk`, which releases `m_mutex` (line 37). -/
  | unlock
  /-- After the call returned. -/
  | done
deriving DecidableEq, Repr

/-- Where a thread is inside `Event::Wait` (Event.h, lines 40-48). -/
inductive WaitPc
  /-- Before `m_flag.TestAndClear()` (line 42). -/
  | testAndClear
  /-- Before the construction of `lk`, which acquires `m_mutex` (line 45). -/
  | lock
  /-- Before an evaluation of the predicate `m_flag.IsSet()`, holding the mutex
  (line 46). -/
  | pred
  /-- The predicate was false: before `wait(lk)`, holding the mutex. -/
  | block
  /-- Blocked inside `wait(lk)`; the mutex is released. -/
  | asleep
  /-- Woken inside `wait(lk)`: before the mutex is acquired again. -/
  | woken
  /-- The predicate was true: before `m_flag.Clear()`, holding the mutex
  (line 47). -/
  | clear
  /-- Before the destruction of `lk`, which releases `m_mutex` (line 48). -/
  | unlock
  /-- After the call returned. -/
  | done
deriving DecidableEq, Repr

/-- A thread runs one call, of `Set()` or of `Wait()`. -/
inductive Thread
  | set (pc : SetPc)
  | wait (pc : WaitPc)
deriving DecidableEq, Repr

/-- The event object and the threads that use it.  The threads blocked on
`m_condvar` are those at `WaitPc.asleep`. -/
structure State where
  /-- The member `m_flag`. -/
  m_flag : Flag
  /-- The member `m_mutex`: the index of the thread that holds it, if any. -/
  m_mutex : Option Nat
  /-- The threads, each with its position in the call it runs. -/
  threads : List Thread
deriving DecidableEq, Repr

/-- What the scheduler and the condition variable may choose to happen next. -/
inductive Action
  /-- Thread `t` performs its next primitive operation (other than
  `notify_one`). -/
  | run (t : Nat)
  /-- Thread `t` performs `m_condvar.notify_one()`; `target` is the blocked
  thread the condition variable unblocks, `none` when no thread is blocked. -/
  | notify (t : Nat) (target : Option Nat)
  /-- Thread `t`, blocked in `wait(lk)`, wakes up spuriously. -/
  | spurious (t : Nat)
deriving DecidableEq, Repr

namespace State

/-- The state with thread `t` moved to `th`. -/
def goto (s : State) (t : Nat) (th : Thread) : State :=
  { s with threads := s.threads.set t th }

/-- Whether some thread is blocked in `wait(lk)`. -/
def anyAsleep (s : State) : Bool :=
  s.threads.any fun th => th = Thread.wait WaitPc.asleep

/-- The next primitive operation of a thread inside `Set()`. -/
def stepSet (s : State) (t : Nat) : SetPc → Option State
  | SetPc.testAndSet =>
    let (r, f) := s.m_flag.TestAndSet
    some ({ s with m_flag := f }.goto t (Thread.set (if r then SetPc.lock else SetPc.done)))
  | SetPc.lock =>
    if s.m_mutex = none then
      some ({ s with m_mutex := some t }.goto t (Thread.set SetPc.notify))
    else none
  | SetPc.notify => none
  | SetPc.unlock => some ({ s with m_mutex := none }.goto t (Thread.set SetPc.done))
  | SetPc.done => none

/-- The next primitive operation of a thread inside `Wait()`. -/
def stepWait (s : State) (t : Nat) : WaitPc → Option State
  | WaitPc.testAndClear =>
    let (r, f) := s.m_flag.TestAndClear
    some ({ s with m_flag := f }.goto t (Thread.wait (if r then WaitPc.done else WaitPc.lock)))
  | WaitPc.lock =>
    if s.m_mutex = none then
      some ({ s with m_mutex := some t }.goto t (Thread.wait WaitPc.pred))
    else none
  | WaitPc.pred =>
    some (s.goto t (Thread.wait (if s.m_flag.IsSet then WaitPc.clear else WaitPc.block)))
  | WaitPc.block => some ({ s with m_mutex := none }.goto t (Thread.wait WaitPc.asleep))
  | WaitPc.asleep => none
  | WaitPc.woken =>
    if s.m_mutex = none then
      some ({ s with m_mutex := some t }.goto t (Thread.wait WaitPc.pred))
    else none
  | WaitPc.clear => some ({ s with m_flag := s.m_flag.Clear }.goto t (Thread.wait WaitPc.unlock))
  | WaitPc.unlock => some ({ s with m_mutex := none }.goto t (Thread.wait WaitPc.done))
  | WaitPc.done => none

/-- One step of the machine; `none` when the action is not enabled. -/
def step (s : State) : Action → Option State
  | Action.run t =>
    match s.threads[t]? with
    | some (Thread.set pc) => s.stepSet t pc
    | some (Thread.wait pc) => s.stepWait t pc
    | none => none
  | Action.notify t target =>
    match s.threads[t]? with
    | some (Thread.set SetPc.notify) =>
      match target with
      | none =>
        if s.anyAsleep then none else some (s.goto t (Thread.set SetPc.unlock))
      | some j =>
        if s.threads[j]? = some (Thread.wait WaitPc.asleep) then
          some ((s.goto j (Thread.wait WaitPc.woken)).goto t (Thread.set SetPc.unlock))
        else none
    | _ => none
  | Action.spurious t =>
    if s.threads[t]? = some (Thread.wait WaitPc.asleep) then
      some (s.goto t (Thread.wait WaitPc.woken))
    else none

/-- Runs a schedule; `none` when one of its actions is not enabled. -/
def exec : State → List Action → Option State
  | s, [] => some s
  | s, a :: as =>
    match s.step a with
    | some s1 => exec s1 as
    | none => none

/-- A freshly constructed event with the given threads about to start. -/
def start (threads : List Thread) : State := ⟨Flag.init, none, threads⟩

end State

/-- A `Wait()` about to start. -/
def Thread.waiter : Thread := Thread.wait WaitPc.testAndClear

/-- A `Set()` about to start. -/
def Thread.setter : Thread := Thread.set SetPc.testAndSet

/-! ### Vocabulary of the statements -/

/-- The schedule in which the thread is woken once per entry of `ns` (by a
notification when the entry is `true`, spuriously otherwise) while no other
thread changes the flag. -/
def undisturbed (ns : List Bool) : List Wakeup := ns.map fun b => ⟨b, none⟩

/-- Whether, in a trace, every evaluation of the wait predicate that found the
flag unsignaled is directly followed by a return to `wait(lk)`. -/
def waitsAgain : List Prim → Bool
  | [] => true
  | Prim.isSet false :: Prim.cv_block :: rest => waitsAgain rest
  | Prim.isSet false :: _ => false
  | _ :: rest => waitsAgain rest

/-! ### One waiter and one setter -/

/-- Whether an action is a spurious wakeup. -/
def Action.isSpurious : Action → Bool
  | Action.spurious _ => true
  | _ => false

/-- The number of spurious wakeups in a schedule. -/
def spuriousCount (sched : List Action) : Nat := (sched.filter Action.isSpurious).length

/-- One thread calls `Wait()` (thread 0) and another calls `Set()` (thread 1) on
a freshly constructed event. -/
def State.oneWaiter : State := State.start [Thread.waiter, Thread.setter]

/-- Both calls have returned, the mutex is free and the event is unsignaled. -/
def State.oneWaiterDone : State :=
  ⟨⟨false⟩, none, [Thread.wait WaitPc.done, Thread.set SetPc.done]⟩

/-- Whether a thread inside `Wait()` holds the mutex. -/
def WaitPc.holdsMutex : WaitPc → Bool
  | WaitPc.pred | WaitPc.block | WaitPc.clear | WaitPc.unlock => true
  | _ => false

/-- Whether a thread inside `Set()` holds the mutex. -/
def SetPc.holdsMutex : SetPc → Bool
  | SetPc.notify | SetPc.unlock => true
  | _ => false

/-- Whether a thread inside `Wait()` has consumed the signal: it has cleared
the flag, by `TestAndClear()` or by `Clear()`. -/
def WaitPc.consumed : WaitPc → Bool
  | WaitPc.unlock | WaitPc.done => true
  | _ => false

/-- An upper bound on the primitive operations a thread inside `Wait()` still
performs before it returns or blocks in `wait(lk)` again. -/
def WaitPc.fuel : WaitPc → Nat
  | WaitPc.testAndClear => 5
  | WaitPc.lock => 4
  | WaitPc.pred => 3
  | WaitPc.block => 2
  | WaitPc.asleep => 1
  | WaitPc.woken => 4
  | WaitPc.clear => 2
  | WaitPc.unlock => 1
  | WaitPc.done => 0

/-- An upper bound on the primitive operations a thread inside `Set()` still
performs or causes: its own, and those of the thread its `notify_one` wakes. -/
def SetPc.fuel : SetPc → Nat
  | SetPc.testAndSet => 7
  | SetPc.lock => 6
  | SetPc.notify => 5
  | SetPc.unlock => 1
  | SetPc.done => 0

/-- The invariant of the runs of one waiter (thread 0, at `w`) and one setter
(thread 1, at `p`), on the flag value `b` and the mutex owner `m`: the mutex
is held by the thread whose position says so, never by both; before the
setter's `TestAndSet()` the flag is clear and the waiter has not consumed a
signal; after it the flag is set until the waiter consumes the signal; and
once the setter has passed `notify_one` the waiter is neither about to block
nor blocked. -/
def oneWaiterInv (b : Bool) (m : Option Nat) (w : WaitPc) (p : SetPc) : Bool :=
  (m == (if w.holdsMutex then some 0 else if p.holdsMutex then some 1 else none)) &&
  !(w.holdsMutex && p.holdsMutex) &&
  (if p = SetPc.testAndSet then !b && !w.consumed && w != WaitPc.clear
   else b == !w.consumed) &&
  (if p = SetPc.unlock ∨ p = SetPc.done then w != WaitPc.block && w != WaitPc.asleep
   else true)

/-- The fuel of a thread. -/
def Thread.fuel : Thread → Nat
  | Thread.set pc => pc.fuel
  | Thread.wait pc => pc.fuel

/-- The fuel of a state: the sum over its threads. -/
def State.fuel (s : State) : Nat := (s.threads.map Thread.fuel).sum

/-- The invariant `oneWaiterInv` as a predicate on states. -/
def State.OneWaiterInv (s : State) : Prop :=
  ∃ w p, s.threads = [Thread.wait w, Thread.set p] ∧
    oneWaiterInv s.m_flag.m_val s.m_mutex w p = true

/-! ### Two waiters and one setter -/

/-- Two threads call `Wait()` (threads 0 and 1) and a third calls `Set()`
(thread 2) on a freshly constructed event. -/
def State.twoWaiters : State := State.start [Thread.waiter, Thread.waiter, Thread.setter]

/-! ## Theorems on single calls (Part 1) -/

theorem Event.Set_signaled (e : Event) : (Event.Set e).1 = ⟨⟨true⟩⟩ := by
  rcases e with ⟨⟨_ | _⟩⟩ <;> rfl

theorem Event.SetN_succ (n : Nat) (e : Event) : Event.SetN (n + 1) e = ⟨⟨true⟩⟩ := by
  induction n generalizing e with
  | zero => exact Event.Set_signaled e
  | succ n ih => exact ih (Event.Set e).1

theorem Event.Wait_of_signaled (e : Event) (sched : List Wakeup) (h : e.signaled = true) :
    Event.Wait e sched = WaitResult.returned ⟨⟨false⟩⟩ [Prim.testAndClear true] := by
  rcases e with ⟨⟨_ | _⟩⟩
  · simp [Event.signaled, Flag.IsSet] at h
  · rfl

/-- While no other thread sets the flag, the wait loop started on a clear flag
is never left: it consumes every wakeup and ends blocked. -/
theorem Event.condvarWait_stays (f : Flag) (sched : List Wakeup) (hf : f.IsSet = false)
    (hs : ∀ w ∈ sched, w.others ≠ some true) :
    (Event.condvarWait f sched).2.2 = false ∧ (Event.condvarWait f sched).1.IsSet = false ∧
      ((Event.condvarWait f sched).2.1.filter fun p => p = Prim.cv_block).length
        = sched.length + 1 := by
  induction sched generalizing f with
  | nil => simp [Event.condvarWait, hf]
  | cons w ws ih =>
    have hw : (w.apply f).IsSet = false := by
      have h1 := hs w (List.mem_cons_self _ _)
      rcases w with ⟨n, _ | _ | _⟩
      · exact hf
      · rfl
      · exact absurd rfl h1
    have := ih (w.apply f) hw (fun v hv => hs v (List.mem_cons_of_mem _ hv))
    simp [Event.condvarWait, hf, this]

/-- When the wait loop is left, its last operation is a predicate evaluation
that found the flag signaled, no earlier one did, and the flag is still
signaled. -/
theorem Event.condvarWait_left (f : Flag) (sched : List Wakeup)
    (h : (Event.condvarWait f sched).2.2 = true) :
    (Event.condvarWait f sched).1.IsSet = true ∧
      ∃ pre, (Event.condvarWait f sched).2.1 = pre ++ [Prim.isSet true] ∧
        ∀ p ∈ pre, p.foundSignaled = false := by
  induction sched generalizing f with
  | nil =>
    by_cases hf : f.IsSet = true
    · simp [Event.condvarWait, hf]
    · simp [Event.condvarWait, hf] at h
  | cons w ws ih =>
    by_cases hf : f.IsSet = true
    · simp [Event.condvarWait, hf]
    · simp only [Event.condvarWait, hf] at h ⊢
      obtain ⟨h1, pre, h2, h3⟩ := ih (w.apply f) h
      refine ⟨h1, Prim.isSet false :: Prim.cv_block :: Prim.cv_wake w.notified :: pre, ?_, ?_⟩
      · simp [h2]
      · intro p hp
        simp only [List.mem_cons] at hp
        rcases hp with rfl | rfl | rfl | hp
        · rfl
        · rfl
        · rfl
        · exact h3 p hp

/-- Every failed predicate evaluation of the wait loop is directly followed by a
return to `wait(lk)`, whatever follows the loop. -/
theorem Event.waitsAgain_condvarWait (f : Flag) (sched : List Wakeup) (tail : List Prim)
    (h : waitsAgain tail = true) :
    waitsAgain ((Event.condvarWait f sched).2.1 ++ tail) = true := by
  induction sched generalizing f with
  | nil =>
    by_cases hf : f.IsSet = true
    · simpa [Event.condvarWait, hf, waitsAgain] using h
    · simpa [Event.condvarWait, hf, waitsAgain] using h
  | cons w ws ih =>
    by_cases hf : f.IsSet = true
    · simpa [Event.condvarWait, hf, waitsAgain] using h
    · simpa [Event.condvarWait, hf, waitsAgain] using ih (w.apply f)

/-- When the wait loop ends blocked, none of its predicate evaluations found the
flag signaled, and its last two operations are a failed evaluation and the
return to `wait(lk)`. -/
theorem Event.condvarWait_blocked (f : Flag) (sched : List Wakeup)
    (h : (Event.condvarWait f sched).2.2 = false) :
    (∀ p ∈ (Event.condvarWait f sched).2.1, p.foundSignaled = false) ∧
      ∃ pre, (Event.condvarWait f sched).2.1 = pre ++ [Prim.isSet false, Prim.cv_block] := by
  induction sched generalizing f with
  | nil =>
    by_cases hf : f.IsSet = true
    · simp [Event.condvarWait, hf] at h
    · simp [Event.condvarWait, hf, Prim.foundSignaled]
  | cons w ws ih =>
    by_cases hf : f.IsSet = true
    · simp [Event.condvarWait, hf] at h
    · simp only [Event.condvarWait, hf] at h ⊢
      obtain ⟨h1, pre, h2⟩ := ih (w.apply f) h
      refine ⟨?_, Prim.isSet false :: Prim.cv_block :: Prim.cv_wake w.notified :: pre, ?_⟩
      · intro p hp
        simp only [Bool.false_eq_true, if_false, List.mem_cons] at hp
        rcases hp with rfl | rfl | rfl | hp
        · rfl
        · rfl
        · rfl
        · exact h1 p hp
      · simp [h2]

theorem undisturbed_others (ns : List Bool) : ∀ w ∈ undisturbed ns, w.others ≠ some true := by
  intro w hw
  simp only [undisturbed, List.mem_map] at hw
  obtain ⟨b, _, rfl⟩ := hw
  simp

/-- A `Wait()` on an unsignaled event takes the slow path and its outcome is
that of the wait loop. -/
theorem Event.Wait_of_unsignaled (e : Event) (sched : List Wakeup) (h : e.signaled = false) :
    Event.Wait e sched =
      if (Event.condvarWait e.m_flag sched).2.2 then
        WaitResult.returned ⟨(Event.condvarWait e.m_flag sched).1.Clear⟩
          (Prim.testAndClear false :: Prim.lock ::
            ((Event.condvarWait e.m_flag sched).2.1 ++ [Prim.clear, Prim.unlock]))
      else
        WaitResult.blocked ⟨(Event.condvarWait e.m_flag sched).1⟩
          (Prim.testAndClear false :: Prim.lock :: (Event.condvarWait e.m_flag sched).2.1) := by
  rcases e with ⟨⟨_ | _⟩⟩
  · rfl
  · simp [Event.signaled, Flag.IsSet] at h

/-- While no other thread sets the flag, a `Wait()` on an unsignaled event does
not return and leaves the event unsignaled. -/
theorem Event.Wait_blocks (e : Event) (sched : List Wakeup) (h : e.signaled = false)
    (hs : ∀ w ∈ sched, w.others ≠ some true) :
    (Event.Wait e sched).isReturned = false ∧ (Event.Wait e sched).event.signaled = false := by
  have hc := Event.condvarWait_stays e.m_flag sched h hs
  rw [Event.Wait_of_unsignaled e sched h]
  simp [hc.1, WaitResult.isReturned, WaitResult.event, Event.signaled, hc.2.1]

/-- C1. Multiple `Set()` calls collapse into one pending signal: for every
`n ≥ 1` and every state of the event, `n` consecutive `Set()` calls leave the
event in the state a single `Set()` leaves it in; the next `Wait()` returns on
the fast path, whatever the wakeup schedule, and leaves the event unsignaled;
a further `Wait()`, while no other thread touches the flag, does not return. -/
theorem Event.Set_collapses (n : Nat) (hn : 1 ≤ n) (e : Event) :
    Event.SetN n e = (Event.Set e).1 ∧
    (∀ sched, Event.Wait (Event.SetN n e) sched
        = WaitResult.returned ⟨⟨false⟩⟩ [Prim.testAndClear true]) ∧
    (∀ sched ns, (Event.Wait (Event.Wait (Event.SetN n e) sched).event
        (undisturbed ns)).isReturned = false) := by
  obtain ⟨m, rfl⟩ : ∃ m, n = m + 1 := ⟨n - 1, by omega⟩
  rw [Event.SetN_succ, Event.Set_signaled]
  refine ⟨rfl, fun sched => Event.Wait_of_signaled ⟨⟨true⟩⟩ sched rfl, fun sched ns => ?_⟩
  rw [Event.Wait_of_signaled ⟨⟨true⟩⟩ sched rfl]
  exact (Event.Wait_blocks ⟨⟨false⟩⟩ (undisturbed ns) rfl (undisturbed_others ns)).1

/-- Witness of C1 at `n = 3` on a freshly constructed event. -/
theorem Event.Set_collapses_witness :
    Event.SetN 3 Event.init = (Event.Set Event.init).1 ∧
    (∀ sched, Event.Wait (Event.SetN 3 Event.init) sched
        = WaitResult.returned ⟨⟨false⟩⟩ [Prim.testAndClear true]) ∧
    (∀ sched ns, (Event.Wait (Event.Wait (Event.SetN 3 Event.init) sched).event
        (undisturbed ns)).isReturned = false) :=
  Event.Set_collapses 3 (by decide) Event.init

/-- C2. Round trip on a freshly constructed event: in `Set(); Wait(); Set();
Wait()` each `Set()` signals the event and each `Wait()` returns on its
successful flag check, whatever the wakeup schedule, leaving the event
unsignaled; a third `Wait()`, while no other thread touches the flag, does
not return. -/
theorem Event.round_trip (s1 s2 : List Wakeup) (ns : List Bool) :
    (Event.Set Event.init).1.signaled = true ∧
    Event.Wait (Event.Set Event.init).1 s1
      = WaitResult.returned ⟨⟨false⟩⟩ [Prim.testAndClear true] ∧
    (Event.Set (Event.Wait (Event.Set Event.init).1 s1).event).1.signaled = true ∧
    Event.Wait (Event.Set (Event.Wait (Event.Set Event.init).1 s1).event).1 s2
      = WaitResult.returned ⟨⟨false⟩⟩ [Prim.testAndClear true] ∧
    (Event.Wait (Event.Set (Event.Wait (Event.Set Event.init).1 s1).event).1 s2).event.signaled
      = false ∧
    (Event.Wait (Event.Wait (Event.Set (Event.Wait (Event.Set Event.init).1 s1).event).1
      s2).event (undisturbed ns)).isReturned = false := by
  have h1 : Event.Wait (Event.Set Event.init).1 s1
      = WaitResult.returned ⟨⟨false⟩⟩ [Prim.testAndClear true] :=
    Event.Wait_of_signaled _ s1 rfl
  rw [h1]
  have h2 : Event.Wait (Event.Set (WaitResult.returned ⟨⟨false⟩⟩ [Prim.testAndClear true]).event).1
      s2 = WaitResult.returned ⟨⟨false⟩⟩ [Prim.testAndClear true] :=
    Event.Wait_of_signaled _ s2 rfl
  rw [h2]
  exact ⟨rfl, rfl, rfl, rfl, rfl,
    (Event.Wait_blocks ⟨⟨false⟩⟩ (undisturbed ns) rfl (undisturbed_others ns)).1⟩

/-- C4. `Reset()` clears the flag unconditionally: the event is unsignaled after
`Reset()` from every state; on a freshly constructed event `Reset()` leaves
the event as constructed, and a subsequent `Wait()`, while no other thread
touches the flag, fails its fast-path check, never finds the wait predicate
true, and does not return. -/
theorem Event.Reset_clears (e : Event) (ns : List Bool) :
    (Event.Reset e).1.signaled = false ∧
    (Event.Reset Event.init).1 = Event.init ∧
    (Event.Wait (Event.Reset Event.init).1 (undisturbed ns)).isReturned = false ∧
    (Event.Wait (Event.Reset Event.init).1 (undisturbed ns)).trace.head?
      = some (Prim.testAndClear false) ∧
    (∀ p ∈ (Event.Wait (Event.Reset Event.init).1 (undisturbed ns)).trace,
      p.foundSignaled = false) := by
  have hc := Event.condvarWait_stays (Event.Reset Event.init).1.m_flag (undisturbed ns) rfl
    (undisturbed_others ns)
  have hw := Event.Wait_of_unsignaled (Event.Reset Event.init).1 (undisturbed ns) rfl
  simp only [hc.1, Bool.false_eq_true, if_false] at hw
  rw [hw]
  refine ⟨rfl, rfl, rfl, rfl, ?_⟩
  intro p hp
  simp only [WaitResult.trace, List.mem_cons] at hp
  rcases hp with rfl | rfl | hp
  · rfl
  · rfl
  · exact (Event.condvarWait_blocked _ _ hc.1).1 p hp

/-- C9. `Set()` notifies exactly when it performs the transition: on an
unsignaled event it sets the flag, then acquires the mutex, calls
`notify_one` once and releases the mutex; on a signaled event it leaves the
flag signaled and touches neither the mutex nor the condition variable.  The
event is signaled afterwards in both cases. -/
theorem Event.Set_notifies_on_transition (e : Event) :
    Event.Set e =
      (if e.signaled then (e, [Prim.testAndSet false])
       else (⟨⟨true⟩⟩, [Prim.testAndSet true, Prim.lock, Prim.notify_one, Prim.unlock])) ∧
    (Event.Set e).1.signaled = true ∧
    (Event.Set e).2.filter Prim.isSync =
      (if e.signaled then [] else [Prim.lock, Prim.notify_one, Prim.unlock]) ∧
    (Event.Set e).2.count Prim.notify_one = (if e.signaled then 0 else 1) := by
  rcases e with ⟨⟨_ | _⟩⟩ <;> decide

/-- C10. The fast path of `Wait()` leaves the lock untouched: on a signaled
event `Wait()` clears the flag and returns having performed the successful
`TestAndClear` only, for every wakeup schedule; on an unsignaled event the
failed `TestAndClear` is followed by the acquisition of the mutex.  So the
mutex is acquired exactly when the event was unsignaled, and the recorded
mutex and condition-variable operations are empty exactly when it was
signaled. -/
theorem Event.Wait_fast_path (e : Event) (sched : List Wakeup) :
    (if e.signaled then
      Event.Wait e sched = WaitResult.returned ⟨⟨false⟩⟩ [Prim.testAndClear true]
     else
      ∃ rest, (Event.Wait e sched).trace = Prim.testAndClear false :: Prim.lock :: rest) ∧
    (Prim.lock ∈ (Event.Wait e sched).trace ↔ e.signaled = false) ∧
    ((Event.Wait e sched).trace.filter Prim.isSync = [] ↔ e.signaled = true) := by
  by_cases h : e.signaled = true
  · rw [Event.Wait_of_signaled e sched h]
    simp [h, WaitResult.trace, Prim.isSync]
  · have h0 : e.signaled = false := by simpa using h
    have ht : ∃ rest, (Event.Wait e sched).trace
        = Prim.testAndClear false :: Prim.lock :: rest := by
      rw [Event.Wait_of_unsignaled e sched h0]
      by_cases hc : (Event.condvarWait e.m_flag sched).2.2 = true
      · exact ⟨(Event.condvarWait e.m_flag sched).2.1 ++ [Prim.clear, Prim.unlock],
          by simp [hc, WaitResult.trace]⟩
      · exact ⟨(Event.condvarWait e.m_flag sched).2.1, by simp [hc, WaitResult.trace]⟩
    obtain ⟨rest, hrest⟩ := ht
    rw [hrest]
    simp [h0, Prim.isSync]

/-- A `Wait()` among other threads that finds the event unsignaled takes the
slow path: its outcome is that of the wait loop started on the flag as the
other threads left it. -/
theorem Event.WaitAmong_of_unsignaled (e : Event) (env : Interference)
    (h : e.signaled = false) :
    Event.WaitAmong e env =
      if (Event.condvarWait (e.m_flag.disturbed env.beforeWait) env.wakeups).2.2 then
        WaitResult.returned
          ⟨Flag.disturbed env.beforeReturn ⟨false⟩⟩
          (Prim.testAndClear false :: Prim.lock ::
            ((Event.condvarWait (e.m_flag.disturbed env.beforeWait) env.wakeups).2.1
              ++ [Prim.clear, Prim.unlock]))
      else
        WaitResult.blocked
          ⟨(Event.condvarWait (e.m_flag.disturbed env.beforeWait) env.wakeups).1⟩
          (Prim.testAndClear false :: Prim.lock ::
            (Event.condvarWait (e.m_flag.disturbed env.beforeWait) env.wakeups).2.1) := by
  rcases e with ⟨⟨_ | _⟩⟩
  · rfl
  · simp [Event.signaled, Flag.IsSet] at h

/-- C3. `Wait()` is not spuriously returnable, for every starting state, every
wakeup schedule and everything the other threads do to the flag between the
operations of the call.  When it returns, either its only operation was a
successful `TestAndClear()`, which left the flag clear, or its trace ends
with a wait predicate that found the flag signaled, `Clear()` and the release
of the mutex, no earlier check having found the flag signaled, and the flag
is clear but for what other threads did after the `Clear()`.  Every wait
predicate that finds the flag unsignaled is directly followed by a return to
`wait(lk)`.  And while the flag stays unsignaled (the event starts
unsignaled and no other thread has set the flag when the predicate is
evaluated, at first or after a wakeup) `Wait()` consumes every wakeup,
blocks again after each, and does not return. -/
theorem Event.Wait_not_spurious (e : Event) (env : Interference) :
    ((Event.WaitAmong e env).isReturned = true →
      (e.signaled = true ∧
        (Event.WaitAmong e env).trace = [Prim.testAndClear true] ∧
        (Event.WaitAmong e env).event.m_flag = ⟨false⟩) ∨
      (e.signaled = false ∧
        (∃ pre, (Event.WaitAmong e env).trace
            = pre ++ [Prim.isSet true, Prim.clear, Prim.unlock] ∧
          ∀ p ∈ pre, p.foundSignaled = false) ∧
        (Event.WaitAmong e env).event.m_flag = Flag.disturbed env.beforeReturn ⟨false⟩)) ∧
    waitsAgain (Event.WaitAmong e env).trace = true ∧
    (e.signaled = false → env.beforeWait ≠ some true →
      (∀ w ∈ env.wakeups, w.others ≠ some true) →
      (Event.WaitAmong e env).isReturned = false ∧
      (Event.WaitAmong e env).event.signaled = false ∧
      ((Event.WaitAmong e env).trace.filter fun p => p = Prim.cv_block).length
        = env.wakeups.length + 1) := by
  by_cases h : e.signaled = true
  · have hw : Event.WaitAmong e env
        = WaitResult.returned ⟨⟨false⟩⟩ [Prim.testAndClear true] := by
      rcases e with ⟨⟨_ | _⟩⟩
      · simp [Event.signaled, Flag.IsSet] at h
      · rfl
    rw [hw]
    refine ⟨fun _ => Or.inl ⟨h, rfl, rfl⟩, rfl, fun h0 => ?_⟩
    rw [h] at h0
    exact absurd h0 (by decide)
  · have h0 : e.signaled = false := by simpa using h
    rw [Event.WaitAmong_of_unsignaled e env h0]
    refine ⟨?_, ?_, ?_⟩
    · intro hr
      by_cases hc : (Event.condvarWait (e.m_flag.disturbed env.beforeWait) env.wakeups).2.2
          = true
      · obtain ⟨_, pre, h2, h3⟩ :=
          Event.condvarWait_left (e.m_flag.disturbed env.beforeWait) env.wakeups hc
        simp only [hc, if_true, WaitResult.event, WaitResult.trace]
        refine Or.inr ⟨h0, ⟨Prim.testAndClear false :: Prim.lock :: pre, ?_, ?_⟩, trivial⟩
        · simp [h2]
        · intro p hp
          simp only [List.mem_cons] at hp
          rcases hp with rfl | rfl | hp
          · rfl
          · rfl
          · exact h3 p hp
      · simp [hc, WaitResult.isReturned] at hr
    · split
      · simpa [WaitResult.trace, waitsAgain] using
          Event.waitsAgain_condvarWait (e.m_flag.disturbed env.beforeWait) env.wakeups
            [Prim.clear, Prim.unlock] rfl
      · simpa [WaitResult.trace, waitsAgain] using
          Event.waitsAgain_condvarWait (e.m_flag.disturbed env.beforeWait) env.wakeups [] rfl
    · intro _ hb hs
      have hf : (e.m_flag.disturbed env.beforeWait).IsSet = false := by
        rcases hbw : env.beforeWait with _ | _ | _
        · exact h0
        · rfl
        · exact absurd hbw hb
      have hc := Event.condvarWait_stays (e.m_flag.disturbed env.beforeWait) env.wakeups hf hs
      simp only [hc.1, Bool.false_eq_true, if_false, WaitResult.isReturned, WaitResult.event,
        WaitResult.trace, Event.signaled, hc.2.1, true_and]
      simpa [List.filter_cons] using hc.2.2

/-- Witness of C3 on a freshly constructed event.  First, another thread sets
the flag between the failed `TestAndClear()` and the first evaluation of the
predicate, and a second waiter consumes the signal between the predicate and
`Clear()`: the call returns without blocking, its trace being the failed
`TestAndClear()`, the acquisition of the mutex, the predicate that held,
`Clear()` and the release of the mutex.  Second, the thread is woken once
spuriously and once by a notification while the flag stays clear: the call
blocks three times and does not return. -/
theorem Event.Wait_not_spurious_witness :
    ((Event.WaitAmong Event.init ⟨some true, [], some false, none⟩).isReturned = true ∧
      (Event.WaitAmong Event.init ⟨some true, [], some false, none⟩).trace
        = [Prim.testAndClear false, Prim.lock, Prim.isSet true, Prim.clear, Prim.unlock] ∧
      ((Event.init.signaled = true ∧
        (Event.WaitAmong Event.init ⟨some true, [], some false, none⟩).trace
          = [Prim.testAndClear true] ∧
        (Event.WaitAmong Event.init ⟨some true, [], some false, none⟩).event.m_flag
          = ⟨false⟩) ∨
      (Event.init.signaled = false ∧
        (∃ pre, (Event.WaitAmong Event.init ⟨some true, [], some false, none⟩).trace
            = pre ++ [Prim.isSet true, Prim.clear, Prim.unlock] ∧
          ∀ p ∈ pre, p.foundSignaled = false) ∧
        (Event.WaitAmong Event.init ⟨some true, [], some false, none⟩).event.m_flag
          = Flag.disturbed none ⟨false⟩))) ∧
    ((Event.WaitAmong Event.init
        ⟨none, [Wakeup.spurious, ⟨true, none⟩], none, none⟩).isReturned = false ∧
      (Event.WaitAmong Event.init
        ⟨none, [Wakeup.spurious, ⟨true, none⟩], none, none⟩).event.signaled = false ∧
      ((Event.WaitAmong Event.init
        ⟨none, [Wakeup.spurious, ⟨true, none⟩], none, none⟩).trace.filter
          fun p => p = Prim.cv_block).length = 2 + 1) :=
  ⟨⟨by decide, by decide,
    (Event.Wait_not_spurious Event.init ⟨some true, [], some false, none⟩).1 (by decide)⟩,
   (Event.Wait_not_spurious Event.init ⟨none, [Wakeup.spurious, ⟨true, none⟩], none, none⟩).2.2
     (by decide) (by decide) (by decide)⟩

/-- Each variant makes the transition of the specification: a call on the
condition-variable variant has the outcome and the signaled bit that the
specification gives from the matching state. -/
theorem Event.call_spec (k : Nat) (c : Call) (e : Event) (s : SpecState)
    (h : e.signaled = s.signaled) :
    (Event.call k c e).1 = (SpecState.call c s).1 ∧
      (Event.call k c e).2.signaled = (SpecState.call c s).2.signaled := by
  have hq : ∀ w ∈ List.replicate k Wakeup.spurious, w.others ≠ some true := by
    intro w hw
    rw [List.eq_of_mem_replicate hw]
    decide
  cases c with
  | Set => cases s <;> simp [Event.call, SpecState.call, Event.Set_signaled] <;> rfl
  | Reset => cases s <;> exact ⟨rfl, rfl⟩
  | Wait =>
    cases s with
    | Signaled =>
      have hw := Event.Wait_of_signaled e (List.replicate k Wakeup.spurious) h
      simp only [Event.call, hw]
      exact ⟨rfl, rfl⟩
    | Unsignaled =>
      have hb := Event.Wait_blocks e (List.replicate k Wakeup.spurious) h hq
      simp only [Event.call]
      cases hw : Event.Wait e (List.replicate k Wakeup.spurious) with
      | returned e1 t => rw [hw] at hb; simp [WaitResult.isReturned] at hb
      | blocked e1 t =>
        rw [hw] at hb
        exact ⟨rfl, hb.2⟩

/-- The native-event variant makes the transition of the specification. -/
theorem Win32.Event.call_native_spec (c : Call) (e : Win32.Event) (s : SpecState)
    (h : e.signaled = s.signaled) :
    (Win32.Event.call c e).1 = (SpecState.call c s).1 ∧
      (Win32.Event.call c e).2.signaled = (SpecState.call c s).2.signaled := by
  rcases e with ⟨⟨_ | _⟩⟩ <;> cases s <;> cases c <;>
    first
    | exact ⟨rfl, rfl⟩
    | exact absurd h (by decide)

/-- Two objects that make the same transitions, call by call, produce the same
run. -/
theorem runCalls_congr {σ τ : Type} (f : Call → σ → Outcome × σ) (g : Call → τ → Outcome × τ)
    (sf : σ → Bool) (sg : τ → Bool)
    (hstep : ∀ c a b, sf a = sg b → (f c a).1 = (g c b).1 ∧ sf (f c a).2 = sg (g c b).2)
    (cs : List Call) (a : σ) (b : τ) (h : sf a = sg b) :
    runCalls f sf cs a = runCalls g sg cs b := by
  induction cs generalizing a b with
  | nil => rfl
  | cons c cs ih =>
    obtain ⟨h1, h2⟩ := hstep c a b h
    simp only [runCalls]
    rcases hf : f c a with ⟨o1, a1⟩
    rcases hg : g c b with ⟨o2, b1⟩
    rw [hf, hg] at h1 h2
    simp only at h1 h2
    subst h1
    cases o1 with
    | returned => simp only [h2, ih a1 b1 h2]
    | blocked => simp only [h2]

/-- C8. The two variants are observationally equivalent as sequential state
machines: for every finite sequence of `Set`/`Wait`/`Reset` calls from the
initial state (and any number `k` of spurious wakeups delivered to a blocked
condition-variable wait), each variant produces, call by call, the outcomes
(returned or blocked) and signaled bits of the specification machine `Set` →
`Signaled`, returned `Wait` → `Unsignaled`, `Reset` → `Unsignaled`, and hence
the same as the other variant. -/
theorem Event.variants_agree (k : Nat) (cs : List Call) :
    runCalls (Event.call k) Event.signaled cs Event.init
      = runCalls SpecState.call SpecState.signaled cs SpecState.init ∧
    runCalls Win32.Event.call Win32.Event.signaled cs Win32.Event.init
      = runCalls SpecState.call SpecState.signaled cs SpecState.init ∧
    runCalls (Event.call k) Event.signaled cs Event.init
      = runCalls Win32.Event.call Win32.Event.signaled cs Win32.Event.init := by
  have h1 := runCalls_congr (Event.call k) SpecState.call Event.signaled SpecState.signaled
    (fun c a b h => Event.call_spec k c a b h) cs Event.init SpecState.init rfl
  have h2 := runCalls_congr Win32.Event.call SpecState.call Win32.Event.signaled
    SpecState.signaled (fun c a b h => Win32.Event.call_native_spec c a b h) cs Win32.Event.init
    SpecState.init rfl
  exact ⟨h1, h2, h1.trans h2.symm⟩

/-! ## Theorems on interleavings (Part 2) -/

/-- One step from a state that satisfies the one-waiter invariant leads to a
state that satisfies it, and uses up one unit of fuel, a spurious wakeup
adding four. -/
theorem State.oneWaiter_step (s s1 : State) (a : Action) (hi : s.OneWaiterInv)
    (hs : s.step a = some s1) :
    s1.OneWaiterInv ∧ s1.fuel + 1 ≤ s.fuel + 4 * (if a.isSpurious then 1 else 0) := by
  obtain ⟨w, p, hth, hg⟩ := hi
  rcases s with ⟨⟨b⟩, m, ths⟩
  simp only at hth hg
  subst hth
  cases a with
  | run t =>
    rcases t with _ | _ | t
    · cases w <;> cases p <;> cases b <;>
        simp [oneWaiterInv, WaitPc.holdsMutex, SetPc.holdsMutex, WaitPc.consumed] at hg <;>
        subst hg <;>
        simp [State.step, State.stepWait, State.goto, Flag.TestAndClear, Flag.IsSet,
          Flag.Clear] at hs <;>
        subst hs <;>
        exact ⟨⟨_, _, rfl, by decide⟩, by decide⟩
    · cases w <;> cases p <;> cases b <;>
        simp [oneWaiterInv, WaitPc.holdsMutex, SetPc.holdsMutex, WaitPc.consumed] at hg <;>
        subst hg <;>
        simp [State.step, State.stepSet, State.goto, Flag.TestAndSet] at hs <;>
        subst hs <;>
        exact ⟨⟨_, _, rfl, by decide⟩, by decide⟩
    · simp [State.step] at hs
  | notify t tgt =>
    rcases t with _ | _ | t
    · simp [State.step] at hs
    · rcases tgt with _ | _ | _ | j <;>
        cases w <;> cases p <;> cases b <;>
        simp [oneWaiterInv, WaitPc.holdsMutex, SetPc.holdsMutex, WaitPc.consumed] at hg <;>
        subst hg <;>
        simp [State.step, State.goto, State.anyAsleep] at hs <;>
        subst hs <;>
        exact ⟨⟨_, _, rfl, by decide⟩, by decide⟩
    · simp [State.step] at hs
  | spurious t =>
    rcases t with _ | _ | t
    · cases w <;> cases p <;> cases b <;>
        simp [oneWaiterInv, WaitPc.holdsMutex, SetPc.holdsMutex, WaitPc.consumed] at hg <;>
        subst hg <;>
        simp [State.step, State.goto] at hs <;>
        subst hs <;>
        exact ⟨⟨_, _, rfl, by decide⟩, by decide⟩
    · simp [State.step] at hs
    · simp [State.step] at hs

/-- Every run from a state that satisfies the one-waiter invariant ends in a
state that satisfies it, and its length is bounded by the fuel spent. -/
theorem State.oneWaiter_exec (s s1 : State) (sched : List Action) (hi : s.OneWaiterInv)
    (hs : s.exec sched = some s1) :
    s1.OneWaiterInv ∧ s1.fuel + sched.length ≤ s.fuel + 4 * spuriousCount sched := by
  induction sched generalizing s with
  | nil =>
    simp only [State.exec, Option.some.injEq] at hs
    subst hs
    exact ⟨hi, by simp [spuriousCount]⟩
  | cons a as ih =>
    simp only [State.exec] at hs
    cases h1 : s.step a with
    | none => simp [h1] at hs
    | some s2 =>
      rw [h1] at hs
      obtain ⟨hi2, hf2⟩ := State.oneWaiter_step s s2 a hi h1
      obtain ⟨hi1, hf1⟩ := ih s2 hi2 hs
      refine ⟨hi1, ?_⟩
      have hc : spuriousCount (a :: as)
          = (if a.isSpurious then 1 else 0) + spuriousCount as := by
        cases h : a.isSpurious <;> simp [spuriousCount, List.filter_cons, h]
        omega
      rw [hc, List.length_cons]
      omega

theorem State.oneWaiter_init : State.oneWaiter.OneWaiterInv :=
  ⟨WaitPc.testAndClear, SetPc.testAndSet, rfl, by decide⟩

/-- In a state that satisfies the one-waiter invariant, either both calls have
returned or some thread can perform its next primitive operation. -/
theorem State.oneWaiter_progress (s : State) (hi : s.OneWaiterInv)
    (hstuck : ∀ a, a.isSpurious = false → s.step a = none) : s = State.oneWaiterDone := by
  obtain ⟨w, p, hth, hg⟩ := hi
  rcases s with ⟨⟨b⟩, m, ths⟩
  simp only at hth hg
  subst hth
  have h0 := hstuck (Action.run 0) rfl
  have h1 := hstuck (Action.run 1) rfl
  have h2 := hstuck (Action.notify 1 none) rfl
  have h3 := hstuck (Action.notify 1 (some 0)) rfl
  cases w <;> cases p <;> cases b <;>
    simp [oneWaiterInv, WaitPc.holdsMutex, SetPc.holdsMutex, WaitPc.consumed] at hg <;>
    subst hg <;>
    first
    | rfl
    | simp [State.step, State.stepWait, State.stepSet, State.goto, State.anyAsleep] at h0 h1 h2 h3

/-- C5. No lost wakeup with one waiter.  In every interleaving of one thread
running `Wait()` and one running `Set()` on a freshly constructed event, at
every state reached: the `Wait()` has not returned unless the `Set()` has
performed its `TestAndSet()`, and when it has returned the flag is clear
again; the state is never "the `Set()` has returned and the waiter is blocked
in `wait(lk)`" (whatever the flag); unless both calls have returned with the
event unsignaled and the mutex free, some thread can perform a primitive
operation other than a spurious wakeup; and the run has at most twelve
steps plus four for each spurious wakeup, so the `Wait()` does return. -/
theorem State.no_lost_wakeup (sched : List Action) (s : State)
    (h : State.oneWaiter.exec sched = some s) :
    (s.threads[0]? = some (Thread.wait WaitPc.done) →
      s.threads[1]? ≠ some (Thread.set SetPc.testAndSet) ∧ s.m_flag.IsSet = false) ∧
    ¬ (s.threads[1]? = some (Thread.set SetPc.done) ∧
        s.threads[0]? = some (Thread.wait WaitPc.asleep)) ∧
    ((∀ a, a.isSpurious = false → s.step a = none) → s = State.oneWaiterDone) ∧
    sched.length ≤ 12 + 4 * spuriousCount sched := by
  obtain ⟨hi, hf⟩ := State.oneWaiter_exec State.oneWaiter s sched State.oneWaiter_init h
  refine ⟨?_, ?_, State.oneWaiter_progress s hi, ?_⟩
  · obtain ⟨w, p, hth, hg⟩ := hi
    rcases s with ⟨⟨b⟩, m, ths⟩
    simp only at hth hg
    subst hth
    intro hw
    simp only [List.getElem?_cons_zero, Option.some.injEq, Thread.wait.injEq] at hw
    subst hw
    cases p <;> cases b <;>
      simp [oneWaiterInv, WaitPc.holdsMutex, SetPc.holdsMutex, WaitPc.consumed] at hg <;>
      simp [Flag.IsSet]
  · obtain ⟨w, p, hth, hg⟩ := hi
    rcases s with ⟨⟨b⟩, m, ths⟩
    simp only at hth hg
    subst hth
    rintro ⟨hp, hw⟩
    simp only [List.getElem?_cons_zero, Option.some.injEq, Thread.wait.injEq] at hw
    simp only [List.getElem?_cons_succ, List.getElem?_cons_zero, Option.some.injEq,
      Thread.set.injEq] at hp
    subst hw hp
    cases b <;> simp [oneWaiterInv, WaitPc.holdsMutex, SetPc.holdsMutex, WaitPc.consumed] at hg
  · have h12 : State.oneWaiter.fuel = 12 := by decide
    omega

/-- Witness of C5: the waiter blocks in `wait(lk)` before the setter starts, is
woken by the `notify_one`, and both calls return. -/
theorem State.no_lost_wakeup_witness :
    State.oneWaiter.exec
        [Action.run 0, Action.run 0, Action.run 0, Action.run 0, Action.run 1, Action.run 1,
          Action.notify 1 (some 0), Action.run 1, Action.run 0, Action.run 0, Action.run 0,
          Action.run 0]
      = some State.oneWaiterDone ∧
    (State.oneWaiterDone.threads[0]? = some (Thread.wait WaitPc.done) →
      State.oneWaiterDone.threads[1]? ≠ some (Thread.set SetPc.testAndSet) ∧
        State.oneWaiterDone.m_flag.IsSet = false) :=
  ⟨by decide,
   (State.no_lost_wakeup
      [Action.run 0, Action.run 0, Action.run 0, Action.run 0, Action.run 1, Action.run 1,
        Action.notify 1 (some 0), Action.run 1, Action.run 0, Action.run 0, Action.run 0,
        Action.run 0]
      State.oneWaiterDone (by decide)).1⟩

/-- The run in which the `Set()` lands between the failed `TestAndClear()` and
the first evaluation of the wait predicate, in both models: in the small-step
machine the waiter returns in five steps of its own without blocking, and
`WaitAmong` with the flag set before the predicate gives the same five
operations. -/
theorem State.set_before_first_predicate :
    State.oneWaiter.exec
        [Action.run 0, Action.run 1, Action.run 0, Action.run 0, Action.run 0, Action.run 0]
      = some ⟨⟨false⟩, none, [Thread.wait WaitPc.done, Thread.set SetPc.lock]⟩ ∧
    Event.WaitAmong Event.init ⟨some true, [], none, none⟩
      = WaitResult.returned ⟨⟨false⟩⟩
          [Prim.testAndClear false, Prim.lock, Prim.isSet true, Prim.clear, Prim.unlock] := by
  decide

/-- C6. Two `Wait()` calls that race for the signal of a single `Set()` can both
return.  Thread 0 fails its `TestAndClear()`, thread 2 sets the flag, thread
0 takes the mutex and finds the predicate `IsSet()` true; thread 1 then
enters `Wait()` and its `TestAndClear()` succeeds, so it returns; thread 0
goes on to `Clear()` and returns as well.  The `Set()` then finishes, finding
nobody to notify. -/
theorem State.two_waiters_both_return :
    State.twoWaiters.exec
        [Action.run 0, Action.run 2, Action.run 0, Action.run 0, Action.run 1, Action.run 0,
          Action.run 0]
      = some ⟨⟨false⟩, none,
          [Thread.wait WaitPc.done, Thread.wait WaitPc.done, Thread.set SetPc.lock]⟩ ∧
    State.twoWaiters.exec
        [Action.run 0, Action.run 2, Action.run 0, Action.run 0, Action.run 1, Action.run 0,
          Action.run 0, Action.run 2, Action.notify 2 none, Action.run 2]
      = some ⟨⟨false⟩, none,
          [Thread.wait WaitPc.done, Thread.wait WaitPc.done, Thread.set SetPc.done]⟩ := by
  decide

end Common
